import Mathlib

/-!
Verification of the decision engine.

A shallow embedding of `src/kestra/scripts/decision_engine.py` from the
devops-intelligence-platform repository, together with theorems about the
evaluator's gating logic, the batch arbiter's rate limiting, the parsing
error paths and the summary statistics.

Modelling conventions:
* Python floats (confidence scores) are modelled as rationals `ℚ`.
* `datetime` values are modelled as rationals counting minutes; the wall
  clock `datetime.now()` is injected as a `Clock` value (the Python code
  reads the wall clock inline; a single clock per call models one batch
  evaluated at one instant).  `timedelta(hours=1)` is `60`,
  `timedelta(hours=2)` is `120`, `timedelta(minutes=m)` is `m`.
* `strftime`-formatted id strings are modelled with `toString` of the
  clock value; only their structure, not the exact date format, matters.
* `json.loads` failures and Python exceptions raised while parsing the
  payload are modelled with `Except String`; the `try/except` around
  `process_ai_analysis` becomes a `match` returning the empty list on any
  `.error`.
* Python dicts keyed by issue id are modelled as association lists with
  last-write-wins insertion (`dictInsert`) and first-match lookup, which
  agrees with Python `dict` semantics because `dictInsert` keeps keys
  unique.
* The heterogeneous summary dict of `get_decision_summary` is a structure
  whose `monitor_only` and `decisions` fields are `Option`s, because the
  empty-input branch of the Python code omits those keys.
-/

-- Batteries marks the `Rat` arithmetic operations `@[irreducible]`, which
-- blocks `decide`-based evaluation of the engine on concrete inputs; restore
-- the default reducibility (this has no effect on soundness).
set_option allowUnsafeReducibility true in
attribute [semireducible] Rat.add Rat.sub Rat.mul Rat.inv

namespace DecisionEngine

/-- The Python `Severity` enum: issue severity levels. -/
inductive Severity where
  | low
  | medium
  | high
  | critical
  deriving DecidableEq, Repr

/-- The Python `ActionType` enum: types of actions the agent can take. -/
inductive ActionType where
  | code_fix
  | scale_up
  | scale_down
  | restart_service
  | rollback
  | configuration_change
  | manual_review
  deriving DecidableEq, Repr

/-- The Python `DecisionOutcome` enum: possible decision outcomes. -/
inductive DecisionOutcome where
  | auto_resolve
  | schedule_maintenance
  | escalate_human
  | monitor_only
  deriving DecidableEq, Repr

/-- The Python `Issue` dataclass: a production issue.  `metadata` is an open
key-value bag, modelled as an association list of strings. -/
structure Issue where
  id : String
  description : String
  severity : Severity
  source : String
  timestamp : ℚ
  error_count : Int
  affected_services : List String
  metadata : List (String × String)
  deriving DecidableEq, Repr

/-- The Python `Recommendation` dataclass: an AI-generated recommendation. -/
structure Recommendation where
  issue_id : String
  action_type : ActionType
  confidence_score : ℚ
  estimated_impact : String
  suggested_fix : String
  risk_assessment : String
  time_estimate : Int
  prerequisites : List String
  deriving DecidableEq, Repr

/-- The Python `Decision` dataclass: the final decision made by the engine. -/
structure Decision where
  id : String
  issue_id : String
  recommendation : Recommendation
  outcome : DecisionOutcome
  confidence : ℚ
  reasoning : String
  timestamp : ℚ
  auto_approved : Bool
  estimated_completion : ℚ
  deriving DecidableEq, Repr

/-- Engine configuration, read in `DecisionEngine.__init__` from the
config dictionary with the documented defaults. -/
structure Config where
  confidence_threshold : ℚ
  max_auto_deployments_per_hour : Nat
  business_hours_only : Bool
  critical_services : List String
  deriving DecidableEq, Repr

/-- The injected wall clock: `now` is `datetime.now()` in minutes and
`hour` is `datetime.now().hour`. -/
structure Clock where
  now : ℚ
  hour : Int
  deriving DecidableEq, Repr

/-- The engine's mutable state: `self.recent_decisions`, the rolling
history used for rate limiting. -/
structure EngineState where
  recent_decisions : List Decision
  deriving DecidableEq, Repr

/-- The Python `_evaluate_severity_risk`: critical severity requires confidence
≥ 0.95, high requires ≥ 0.85, medium and low always pass. -/
def evaluate_severity_risk (issue : Issue) (r : Recommendation) : Bool :=
  if issue.severity = .critical then
    decide ((95 : ℚ)/100 ≤ r.confidence_score)
  else if issue.severity = .high then
    decide ((85 : ℚ)/100 ≤ r.confidence_score)
  else
    true

/-- The Python `_evaluate_business_impact`: if a critical service is affected,
require a safe action (scale-up or configuration-change) and confidence
≥ 0.9; else under business-hours-only mode reject high/critical issues
outside 9..17 local time; otherwise pass. -/
def evaluate_business_impact (cfg : Config) (clk : Clock) (issue : Issue)
    (r : Recommendation) : Bool :=
  let critical_services_affected :=
    issue.affected_services.any (fun s => cfg.critical_services.contains s)
  if critical_services_affected then
    (r.action_type = ActionType.scale_up ∨
     r.action_type = ActionType.configuration_change : Bool)
      && decide ((9 : ℚ)/10 ≤ r.confidence_score)
  else if cfg.business_hours_only then
    let is_business_hours := (9 ≤ clk.hour ∧ clk.hour ≤ 17 : Bool)
    if !is_business_hours &&
        (issue.severity = Severity.high ∨ issue.severity = Severity.critical : Bool) then
      false
    else
      true
  else
    true

/-- The Python `_evaluate_technical_feasibility`: risky actions (rollback,
code-fix) require confidence ≥ 0.9; safe actions (scale-up,
configuration-change, restart-service) pass; everything else fails.
Prerequisites are only logged and never influence the result. -/
def evaluate_technical_feasibility (r : Recommendation) : Bool :=
  let safe_actions : List ActionType :=
    [ActionType.scale_up, ActionType.configuration_change, ActionType.restart_service]
  let risky_actions : List ActionType :=
    [ActionType.rollback, ActionType.code_fix]
  if risky_actions.contains r.action_type then
    decide ((9 : ℚ)/10 ≤ r.confidence_score)
  else
    safe_actions.contains r.action_type

/-- The Python `_create_escalation_decision`: the synthetic escalation produced when
the referenced issue is missing; estimated completion is now + 2 hours. -/
def create_escalation_decision (clk : Clock) (r : Recommendation)
    (reason : String) : Decision :=
  { id := "escalation_" ++ toString clk.now
    issue_id := r.issue_id
    recommendation := r
    outcome := DecisionOutcome.escalate_human
    confidence := 0
    reasoning := reason
    timestamp := clk.now
    auto_approved := false
    estimated_completion := clk.now + 120 }

/-- The conjunction of the four gates of `_make_decision`:
`all([confidence_check, severity_check, business_impact_check, technical_check])`. -/
def all_checks (cfg : Config) (clk : Clock) (issue : Issue)
    (r : Recommendation) : Bool :=
  decide (cfg.confidence_threshold ≤ r.confidence_score)
    && evaluate_severity_risk issue r
    && evaluate_business_impact cfg clk issue r
    && evaluate_technical_feasibility r

/-- The Python `_make_decision`: evaluate one recommendation against the issue map.
Falls back to a synthetic escalation when the issue id is absent;
otherwise applies the disposition rule: all gates → auto-resolve /
auto-approved, else confidence ≥ 0.6 and not critical → schedule
maintenance, else escalate. -/
def make_decision (cfg : Config) (clk : Clock) (r : Recommendation)
    (issues : List (String × Issue)) : Decision :=
  match issues.lookup r.issue_id with
  | none => create_escalation_decision clk r "Issue not found"
  | some issue =>
    let outcome_approved_reasoning : DecisionOutcome × Bool × String :=
      if all_checks cfg clk issue r then
        (DecisionOutcome.auto_resolve, true,
          "All checks passed: confidence=" ++ toString r.confidence_score
            ++ ", severity=" ++ toString (repr issue.severity))
      else if (6 : ℚ)/10 ≤ r.confidence_score ∧ issue.severity ≠ Severity.critical then
        (DecisionOutcome.schedule_maintenance, false,
          "Medium confidence, scheduling for maintenance window")
      else
        (DecisionOutcome.escalate_human, false,
          "Failed checks: confidence=" ++ toString r.confidence_score
            ++ ", severity=" ++ toString (repr issue.severity))
    { id := "decision_" ++ toString clk.now ++ "_" ++ r.issue_id
      issue_id := r.issue_id
      recommendation := r
      outcome := outcome_approved_reasoning.1
      confidence := r.confidence_score
      reasoning := outcome_approved_reasoning.2.2
      timestamp := clk.now
      auto_approved := outcome_approved_reasoning.2.1
      estimated_completion := clk.now + r.time_estimate }

/-- The note appended to the reasoning of a rate-limited decision. -/
def rateLimitNote : String := " (Rate limited - converted to scheduled maintenance)"

/-- The in-place downgrade applied by `_apply_business_rules` when the
hourly auto-approval budget is exhausted. -/
def rateLimitDowngrade (d : Decision) : Decision :=
  { d with outcome := DecisionOutcome.schedule_maintenance
           auto_approved := false
           reasoning := d.reasoning ++ rateLimitNote }

/-- The rate-limiting eligibility test of `_apply_business_rules`:
`d.auto_approved and d.outcome == DecisionOutcome.AUTO_RESOLVE`. -/
def eligibleAuto (d : Decision) : Bool :=
  d.auto_approved && decide (d.outcome = DecisionOutcome.auto_resolve)

/-- The per-decision loop of `_apply_business_rules`: walk the batch in
order keeping a running `added` counter; once `recent + added` reaches
the cap, downgrade further eligible decisions in place. -/
def businessRulesLoop (cap recent : Nat) : Nat → List Decision → List Decision
  | _, [] => []
  | added, d :: rest =>
    if eligibleAuto d then
      if cap ≤ recent + added then
        rateLimitDowngrade d :: businessRulesLoop cap recent added rest
      else
        d :: businessRulesLoop cap recent (added + 1) rest
    else
      d :: businessRulesLoop cap recent added rest

/-- The pruning step of `_apply_business_rules`: keep only history
entries strictly newer than one hour before the evaluation time. -/
def pruneHistory (clk : Clock) (hist : List Decision) : List Decision :=
  hist.filter (fun d => decide (clk.now - 60 < d.timestamp))

/-- The `recent_auto_approvals` count of `_apply_business_rules`:
pruned history entries that are auto-approved with outcome auto-resolve. -/
def recentAutoApprovals (clk : Clock) (st : EngineState) : Nat :=
  (pruneHistory clk st.recent_decisions).countP eligibleAuto

/-- The Python `_apply_business_rules`: prune the rolling history, count recent
auto-approvals, rate limit the batch in order, and append every
processed decision to the history. -/
def apply_business_rules (cfg : Config) (clk : Clock) (st : EngineState)
    (decisions : List Decision) : List Decision × EngineState :=
  let pruned := pruneHistory clk st.recent_decisions
  let recent := pruned.countP eligibleAuto
  let out := businessRulesLoop cfg.max_auto_deployments_per_hour recent 0 decisions
  (out, ⟨pruned ++ out⟩)

/-- A raw issue record as it appears in the JSON payload: every field may
be absent (Python `dict.get` defaults apply).  The `timestamp` field is
already numeric here: ISO-8601 strings are abstracted to their parsed
minute value (an unparsable timestamp string is one of the exceptions
subsumed by the payload-level `Except`). -/
structure RawIssue where
  id : Option String
  description : Option String
  severity : Option String
  source : Option String
  timestamp : Option ℚ
  error_count : Option Int
  affected_services : Option (List String)
  metadata : Option (List (String × String))
  deriving DecidableEq, Repr

/-- A raw recommendation record as it appears in the JSON payload. -/
structure RawRecommendation where
  issue_id : Option String
  action_type : Option String
  confidence_score : Option ℚ
  estimated_impact : Option String
  suggested_fix : Option String
  risk_assessment : Option String
  time_estimate : Option Int
  prerequisites : Option (List String)
  deriving DecidableEq, Repr

/-- The decoded JSON analysis payload: `analysis.get('issues', [])` and
`analysis.get('recommendations', [])`. -/
structure RawAnalysis where
  issues : List RawIssue
  recommendations : List RawRecommendation
  deriving DecidableEq, Repr

/-- The Python `Severity(value)`: raises `ValueError` (here `.error`) on an unknown
severity string. -/
def severityOfString : String → Except String Severity
  | "low" => .ok Severity.low
  | "medium" => .ok Severity.medium
  | "high" => .ok Severity.high
  | "critical" => .ok Severity.critical
  | s => .error ("invalid severity: " ++ s)

/-- The Python `ActionType(value)`: raises `ValueError` (here `.error`) on an
unknown action-type string. -/
def actionTypeOfString : String → Except String ActionType
  | "code_fix" => .ok ActionType.code_fix
  | "scale_up" => .ok ActionType.scale_up
  | "scale_down" => .ok ActionType.scale_down
  | "restart_service" => .ok ActionType.restart_service
  | "rollback" => .ok ActionType.rollback
  | "configuration_change" => .ok ActionType.configuration_change
  | "manual_review" => .ok ActionType.manual_review
  | s => .error ("invalid action type: " ++ s)

/-- The Python `issues[issue.id] = issue` on a Python dict: overwrite in place if
the key exists, else append. -/
def dictInsert (m : List (String × Issue)) (k : String) (v : Issue) :
    List (String × Issue) :=
  if m.any (fun p => p.1 = k) then
    m.map (fun p => if p.1 = k then (k, v) else p)
  else
    m ++ [(k, v)]

/-- The loop body of `_parse_issues`, folding raw records into the issue
dict; `acc.length` models `len(issues)` in the default id. -/
def parseIssuesGo (clk : Clock) (acc : List (String × Issue)) :
    List RawIssue → Except String (List (String × Issue))
  | [] => .ok acc
  | raw :: rest => do
    let sev ← severityOfString (raw.severity.getD "medium")
    let issue : Issue :=
      { id := raw.id.getD ("issue_" ++ toString acc.length)
        description := raw.description.getD "Unknown issue"
        severity := sev
        source := raw.source.getD "unknown"
        timestamp := raw.timestamp.getD clk.now
        error_count := raw.error_count.getD 0
        affected_services := raw.affected_services.getD []
        metadata := raw.metadata.getD [] }
    parseIssuesGo clk (dictInsert acc issue.id issue) rest

/-- The Python `_parse_issues`: build the issue dict, propagating any enum
`ValueError` to the caller's exception handler. -/
def parse_issues (clk : Clock) (issues_data : List RawIssue) :
    Except String (List (String × Issue)) :=
  parseIssuesGo clk [] issues_data

/-- The loop body of `_parse_recommendations`. -/
def parseRecommendationsGo (acc : List Recommendation) :
    List RawRecommendation → Except String (List Recommendation)
  | [] => .ok acc
  | raw :: rest => do
    let act ← actionTypeOfString (raw.action_type.getD "manual_review")
    let r : Recommendation :=
      { issue_id := raw.issue_id.getD "unknown"
        action_type := act
        confidence_score := raw.confidence_score.getD 0
        estimated_impact := raw.estimated_impact.getD "Unknown"
        suggested_fix := raw.suggested_fix.getD ""
        risk_assessment := raw.risk_assessment.getD "Medium risk"
        time_estimate := raw.time_estimate.getD 30
        prerequisites := raw.prerequisites.getD [] }
    parseRecommendationsGo (acc ++ [r]) rest

/-- The Python `_parse_recommendations`: build the recommendation list, propagating
any enum `ValueError` to the caller's exception handler. -/
def parse_recommendations (recommendations_data : List RawRecommendation) :
    Except String (List Recommendation) :=
  parseRecommendationsGo [] recommendations_data

/-- The Python `process_ai_analysis`: decode the payload (`.error` models both a
`json.JSONDecodeError` and any other exception raised while reading the
payload), evaluate every recommendation in order, then apply the business
rules.  Every caught exception yields the empty decision list and leaves
`self.recent_decisions` untouched. -/
def process_ai_analysis (cfg : Config) (clk : Clock) (st : EngineState)
    (ai_response : Except String RawAnalysis) : List Decision × EngineState :=
  match ai_response with
  | .error _ => ([], st)
  | .ok analysis =>
    match parse_issues clk analysis.issues with
    | .error _ => ([], st)
    | .ok issues =>
      match parse_recommendations analysis.recommendations with
      | .error _ => ([], st)
      | .ok recommendations =>
        let decisions := recommendations.map (fun r => make_decision cfg clk r issues)
        apply_business_rules cfg clk st decisions

/-- The Python `DecisionOutcome.value`: the string stored in the summary's decision
views. -/
def outcomeValue : DecisionOutcome → String
  | DecisionOutcome.auto_resolve => "auto_resolve"
  | DecisionOutcome.schedule_maintenance => "schedule_maintenance"
  | DecisionOutcome.escalate_human => "escalate_human"
  | DecisionOutcome.monitor_only => "monitor_only"

/-- The Python `ActionType.value`. -/
def actionTypeValue : ActionType → String
  | ActionType.code_fix => "code_fix"
  | ActionType.scale_up => "scale_up"
  | ActionType.scale_down => "scale_down"
  | ActionType.restart_service => "restart_service"
  | ActionType.rollback => "rollback"
  | ActionType.configuration_change => "configuration_change"
  | ActionType.manual_review => "manual_review"

/-- The per-decision record exposed under the summary's `decisions` key. -/
structure DecisionView where
  id : String
  issue_id : String
  outcome : String
  confidence : ℚ
  auto_approved : Bool
  reasoning : String
  action_type : String
  estimated_completion : ℚ
  deriving DecidableEq, Repr

/-- The Python `Decision` → `DecisionView`, as built inside `get_decision_summary`. -/
def decisionView (d : Decision) : DecisionView :=
  { id := d.id
    issue_id := d.issue_id
    outcome := outcomeValue d.outcome
    confidence := d.confidence
    auto_approved := d.auto_approved
    reasoning := d.reasoning
    action_type := actionTypeValue d.recommendation.action_type
    estimated_completion := d.estimated_completion }

/-- The summary dict returned by `get_decision_summary`.  The Python
empty-input branch returns a dict without the `monitor_only` and
`decisions` keys, hence those fields are `Option`s (`none` = key absent). -/
structure DecisionSummary where
  total_decisions : Nat
  auto_approved : Nat
  escalations : Nat
  scheduled : Nat
  monitor_only : Option Int
  average_confidence : ℚ
  decisions : Option (List DecisionView)
  deriving DecidableEq, Repr

/-- Round half to even, the rounding mode of Python's builtin `round`. -/
def roundHalfEven (q : ℚ) : ℤ :=
  let f := ⌊q⌋
  if q - f < 1/2 then f
  else if (1 : ℚ)/2 < q - f then f + 1
  else if f % 2 = 0 then f else f + 1

/-- The Python `round(x, 3)` in Python, idealised over exact rationals. -/
def pyRound3 (q : ℚ) : ℚ :=
  (roundHalfEven (q * 1000) : ℚ) / 1000

/-- The Python `get_decision_summary`: zero statistics (without the `monitor_only`
and `decisions` keys) for an empty list; otherwise counts of
auto-approved / escalated / scheduled decisions, the residual
`monitor_only` count, and the mean confidence rounded to three decimal
places. -/
def get_decision_summary (decisions : List Decision) : DecisionSummary :=
  if decisions = [] then
    { total_decisions := 0
      auto_approved := 0
      escalations := 0
      scheduled := 0
      monitor_only := none
      average_confidence := 0
      decisions := none }
  else
    let auto_approved := decisions.countP (fun d => d.auto_approved)
    let escalations :=
      decisions.countP (fun d => decide (d.outcome = DecisionOutcome.escalate_human))
    let scheduled :=
      decisions.countP (fun d => decide (d.outcome = DecisionOutcome.schedule_maintenance))
    let avg_confidence :=
      (decisions.map (fun d => d.confidence)).sum / decisions.length
    { total_decisions := decisions.length
      auto_approved := auto_approved
      escalations := escalations
      scheduled := scheduled
      monitor_only :=
        some ((decisions.length : ℤ) - auto_approved - escalations - scheduled)
      average_confidence := pyRound3 avg_confidence
      decisions := some (decisions.map decisionView) }

/-! Concrete test fixtures used by witness and counterexample theorems. -/

/-- The example configuration of `main()` in the source. -/
def cfg0 : Config := ⟨8/10, 5, false, ["payment-service", "user-auth", "core-api"]⟩

/-- A fixed evaluation instant: minute 1000, local hour 12. -/
def clk0 : Clock := ⟨1000, 12⟩

/-- A high-severity issue affecting no critical service. -/
def issueHigh : Issue :=
  ⟨"issue_001", "High error rate", Severity.high, "datadog", 990, 45, ["other-service"], []⟩

/-- A critical-severity issue. -/
def issueCrit : Issue :=
  ⟨"issue_002", "Outage", Severity.critical, "datadog", 990, 99, ["other-service"], []⟩

/-- A scale-up recommendation with confidence 0.85 for `issueHigh`. -/
def recScale : Recommendation :=
  ⟨"issue_001", ActionType.scale_up, 85/100, "Reduce error rate", "Scale up", "Low risk", 5, []⟩

/-- A scale-up recommendation with confidence 0.90 for `issueCrit`. -/
def recCrit : Recommendation :=
  ⟨"issue_002", ActionType.scale_up, 90/100, "Unknown", "Scale up", "Low risk", 5, []⟩

/-- A recommendation referencing an issue id absent from the batch. -/
def recMissing : Recommendation :=
  ⟨"issue_404", ActionType.restart_service, 99/100, "Unknown", "Restart", "Low risk", 5, []⟩

/-! Theorems about the per-item evaluator. -/

/-- C1 — For a recommendation whose issue is present, `_make_decision`
assigns the disposition by first match: all four gates → auto-resolve
with auto-approved true; else confidence ≥ 0.6 and severity not critical
→ schedule-maintenance, not approved; else escalate-human, not approved;
in particular a critical issue failing any gate is escalated, never
scheduled. -/
theorem evaluator_disposition_order
    (cfg : Config) (clk : Clock) (r : Recommendation)
    (issues : List (String × Issue)) (issue : Issue)
    (h : issues.lookup r.issue_id = some issue) :
    (all_checks cfg clk issue r = true →
      (make_decision cfg clk r issues).outcome = DecisionOutcome.auto_resolve ∧
      (make_decision cfg clk r issues).auto_approved = true) ∧
    (all_checks cfg clk issue r = false →
      (6 : ℚ)/10 ≤ r.confidence_score → issue.severity ≠ Severity.critical →
      (make_decision cfg clk r issues).outcome = DecisionOutcome.schedule_maintenance ∧
      (make_decision cfg clk r issues).auto_approved = false) ∧
    (all_checks cfg clk issue r = false →
      (r.confidence_score < (6 : ℚ)/10 ∨ issue.severity = Severity.critical) →
      (make_decision cfg clk r issues).outcome = DecisionOutcome.escalate_human ∧
      (make_decision cfg clk r issues).auto_approved = false) ∧
    (issue.severity = Severity.critical → all_checks cfg clk issue r = false →
      (make_decision cfg clk r issues).outcome ≠ DecisionOutcome.schedule_maintenance ∧
      (make_decision cfg clk r issues).outcome = DecisionOutcome.escalate_human) := by
  have hnot : ∀ hg : all_checks cfg clk issue r = false,
      ∀ hc : r.confidence_score < (6 : ℚ)/10 ∨ issue.severity = Severity.critical,
      (make_decision cfg clk r issues).outcome = DecisionOutcome.escalate_human ∧
      (make_decision cfg clk r issues).auto_approved = false := by
    intro hg hc
    have hcond : ¬((6 : ℚ)/10 ≤ r.confidence_score ∧ issue.severity ≠ Severity.critical) := by
      rcases hc with h1 | h2
      · exact fun hx => absurd hx.1 (not_le.mpr h1)
      · exact fun hx => hx.2 h2
    simp [make_decision, h, hg, hcond]
  refine ⟨?_, ?_, hnot, ?_⟩
  · intro hg
    simp [make_decision, h, hg]
  · intro hg hc hs
    simp [make_decision, h, hg, hc, hs]
  · intro hs hg
    have := hnot hg (Or.inr hs)
    exact ⟨by simp [this.1], this.1⟩

/-- C1 witness — the spec's scenario: critical severity with confidence
0.90 fails the severity gate and is escalated, not scheduled. -/
theorem evaluator_disposition_order_witness :
    (make_decision cfg0 clk0 recCrit [("issue_002", issueCrit)]).outcome =
      DecisionOutcome.escalate_human ∧
    (make_decision cfg0 clk0 recCrit [("issue_002", issueCrit)]).auto_approved = false :=
  (evaluator_disposition_order cfg0 clk0 recCrit [("issue_002", issueCrit)] issueCrit
      (by decide)).2.2.1 (by decide) (Or.inr (by decide))

/-- C3 — A recommendation whose issue id is not in the issue map yields,
without raising, an escalate-human decision with confidence 0.0, not
auto-approved, whose estimated completion is the current time plus two
hours. -/
theorem missing_issue_escalates
    (cfg : Config) (clk : Clock) (r : Recommendation)
    (issues : List (String × Issue))
    (h : issues.lookup r.issue_id = none) :
    make_decision cfg clk r issues = create_escalation_decision clk r "Issue not found" ∧
    (make_decision cfg clk r issues).outcome = DecisionOutcome.escalate_human ∧
    (make_decision cfg clk r issues).confidence = 0 ∧
    (make_decision cfg clk r issues).auto_approved = false ∧
    (make_decision cfg clk r issues).estimated_completion = clk.now + 120 := by
  simp [make_decision, h, create_escalation_decision]

/-- C3 witness — evaluating a recommendation against an empty issue map. -/
theorem missing_issue_escalates_witness :
    (make_decision cfg0 clk0 recMissing []).outcome = DecisionOutcome.escalate_human ∧
    (make_decision cfg0 clk0 recMissing []).confidence = 0 ∧
    (make_decision cfg0 clk0 recMissing []).auto_approved = false ∧
    (make_decision cfg0 clk0 recMissing []).estimated_completion = clk0.now + 120 :=
  (missing_issue_escalates cfg0 clk0 recMissing [] rfl).2

/-- C8 — The technical-feasibility gate passes exactly when the action is
risky (rollback or code-fix) with confidence ≥ 0.9 or safe (scale-up,
configuration-change, restart-service); scale-down and manual-review fail
regardless of confidence, and the prerequisites list never affects the
result. -/
theorem technical_feasibility_characterisation (r : Recommendation) :
    (evaluate_technical_feasibility r = true ↔
      (((r.action_type = ActionType.rollback ∨ r.action_type = ActionType.code_fix) ∧
         (9 : ℚ)/10 ≤ r.confidence_score) ∨
        r.action_type = ActionType.scale_up ∨
        r.action_type = ActionType.configuration_change ∨
        r.action_type = ActionType.restart_service)) ∧
    (∀ ps : List String,
      evaluate_technical_feasibility { r with prerequisites := ps } =
        evaluate_technical_feasibility r) ∧
    evaluate_technical_feasibility { r with action_type := ActionType.scale_down } = false ∧
    evaluate_technical_feasibility { r with action_type := ActionType.manual_review } = false := by
  refine ⟨?_, fun ps => rfl, ?_, ?_⟩
  · cases hr : r.action_type <;>
      simp [evaluate_technical_feasibility, hr]
  · simp [evaluate_technical_feasibility]
  · simp [evaluate_technical_feasibility]

/-! Theorems about the batch arbiter. -/

/-- The rate-limiting loop preserves the length of the batch. -/
theorem businessRulesLoop_length (cap recent : Nat) (ds : List Decision) :
    ∀ added : Nat, (businessRulesLoop cap recent added ds).length = ds.length := by
  induction ds with
  | nil => intro added; rfl
  | cons d rest ih =>
    intro added
    unfold businessRulesLoop
    split_ifs <;> simp [ih]

/-- Index characterisation of the rate-limiting loop: the `j`-th output
is the `j`-th input, downgraded exactly when it is an eligible
auto-resolve and the budget `cap` is already exhausted by the recent
count, the entry counter, and the eligible entries before position `j`. -/
theorem businessRulesLoop_getElem (cap recent : Nat) (ds : List Decision) :
    ∀ (added j : Nat), (hj : j < ds.length) →
    (businessRulesLoop cap recent added ds)[j]? =
      some (if eligibleAuto ds[j] = true ∧
              cap ≤ recent + added + (ds.take j).countP eligibleAuto
            then rateLimitDowngrade ds[j]
            else ds[j]) := by
  induction ds with
  | nil => intro added j hj; simp at hj
  | cons d rest ih =>
    intro added j hj
    match j with
    | 0 =>
      unfold businessRulesLoop
      by_cases he : eligibleAuto d
      · by_cases hc : cap ≤ recent + added
        · simp [he, hc]
        · simp [he, hc]
      · simp [he]
    | j + 1 =>
      have hj' : j < rest.length := by simpa using hj
      have htake : (d :: rest).take (j + 1) = d :: rest.take j := List.take_succ_cons
      have hget : (d :: rest)[j + 1] = rest[j] := rfl
      unfold businessRulesLoop
      by_cases he : eligibleAuto d
      · by_cases hc : cap ≤ recent + added
        · rw [if_pos he, if_pos hc]
          rw [List.getElem?_cons_succ, ih added j hj', hget, htake]
          rw [List.countP_cons_of_pos _ _ he]
          have h1 : cap ≤ recent + added + (rest.take j).countP eligibleAuto := by omega
          have h2 : cap ≤ recent + added + ((rest.take j).countP eligibleAuto + 1) := by omega
          by_cases hr : eligibleAuto rest[j] = true
          · rw [if_pos ⟨hr, h1⟩, if_pos ⟨hr, h2⟩]
          · simp [hr]
        · rw [if_pos he, if_neg hc]
          rw [List.getElem?_cons_succ, ih (added + 1) j hj', hget, htake]
          rw [List.countP_cons_of_pos _ _ he]
          have heq : recent + (added + 1) + (rest.take j).countP eligibleAuto
              = recent + added + ((rest.take j).countP eligibleAuto + 1) := by omega
          rw [heq]
      · rw [if_neg he]
        rw [List.getElem?_cons_succ, ih added j hj', hget, htake]
        rw [List.countP_cons_of_neg _ _ (by simpa using he)]

/-- A config whose hourly auto-approval cap is 1. -/
def cfgCap1 : Config := ⟨8/10, 1, false, []⟩

/-- An auto-resolve-eligible recommendation used in arbiter fixtures. -/
def recW : Recommendation :=
  ⟨"issue_001", ActionType.scale_up, 9/10, "Unknown", "Scale up", "Low risk", 5, []⟩

/-- An auto-approved auto-resolve decision used in arbiter fixtures. -/
def dW : Decision :=
  ⟨"w1", "issue_001", recW, DecisionOutcome.auto_resolve, 9/10, "ok", 995, true, 1000⟩

/-- An empty rolling history. -/
def stEmpty : EngineState := ⟨[]⟩

/-- A history decision recorded 100 minutes before `clk0`. -/
def dOld : Decision :=
  ⟨"old", "issue_000", recW, DecisionOutcome.auto_resolve, 9/10, "ok", 900, true, 905⟩

/-- C2 — With zero recent auto-approvals, rate limiting is strict FIFO:
an eligible auto-resolve decision is kept unchanged exactly when fewer
than `cap` eligible decisions precede it in the batch, and otherwise is
changed to schedule-maintenance, not auto-approved, with the rate-limit
note appended to its reasoning. -/
theorem arbiter_fifo_rate_limit
    (cfg : Config) (clk : Clock) (st : EngineState) (ds : List Decision)
    (h0 : recentAutoApprovals clk st = 0)
    (hK : cfg.max_auto_deployments_per_hour < ds.countP eligibleAuto)
    (j : Nat) (hj : j < ds.length) (he : eligibleAuto ds[j] = true) :
    ((ds.take j).countP eligibleAuto < cfg.max_auto_deployments_per_hour →
      (apply_business_rules cfg clk st ds).1[j]? = some ds[j]) ∧
    (cfg.max_auto_deployments_per_hour ≤ (ds.take j).countP eligibleAuto →
      (apply_business_rules cfg clk st ds).1[j]? =
        some { ds[j] with
                outcome := DecisionOutcome.schedule_maintenance
                auto_approved := false
                reasoning := ds[j].reasoning ++ rateLimitNote }) := by
  have h1 : (apply_business_rules cfg clk st ds).1
      = businessRulesLoop cfg.max_auto_deployments_per_hour
          (recentAutoApprovals clk st) 0 ds := rfl
  have hg := businessRulesLoop_getElem cfg.max_auto_deployments_per_hour
      0 ds 0 j hj
  constructor
  · intro hlt
    have hnc : ¬(eligibleAuto ds[j] = true ∧
        cfg.max_auto_deployments_per_hour ≤ 0 + 0 + (ds.take j).countP eligibleAuto) := by
      intro hx
      omega
    rw [h1, h0, hg, if_neg hnc]
  · intro hge
    have hc : eligibleAuto ds[j] = true ∧
        cfg.max_auto_deployments_per_hour ≤ 0 + 0 + (ds.take j).countP eligibleAuto :=
      ⟨he, by omega⟩
    rw [h1, h0, hg, if_pos hc]
    rfl

/-- C2 witness — a batch of two eligible decisions with cap 1 and empty
history: the second decision is downgraded. -/
theorem arbiter_fifo_rate_limit_witness :
    (apply_business_rules cfgCap1 clk0 stEmpty [dW, dW]).1[1]? =
      some { dW with
              outcome := DecisionOutcome.schedule_maintenance
              auto_approved := false
              reasoning := dW.reasoning ++ rateLimitNote } :=
  (arbiter_fifo_rate_limit cfgCap1 clk0 stEmpty [dW, dW]
      (by decide) (by decide) 1 (by decide) (by decide)).2 (by decide)

/-- C4 — A history entry more than one hour old is pruned before
counting, so it never contributes to the rate-limit budget: the whole
batch call is unchanged by its presence, it is absent from the pruned
history, and the recent count counts exactly the remaining entries that
are auto-approved with outcome auto-resolve. -/
theorem history_pruning_never_counts
    (cfg : Config) (clk : Clock) (l1 l2 ds : List Decision)
    (d_old : Decision) (h : 60 < clk.now - d_old.timestamp) :
    apply_business_rules cfg clk ⟨l1 ++ d_old :: l2⟩ ds =
      apply_business_rules cfg clk ⟨l1 ++ l2⟩ ds ∧
    d_old ∉ pruneHistory clk (l1 ++ d_old :: l2) ∧
    recentAutoApprovals clk ⟨l1 ++ d_old :: l2⟩ =
      (l1 ++ d_old :: l2).countP
        (fun d => decide (clk.now - 60 < d.timestamp) && eligibleAuto d) := by
  have hts : ¬(clk.now - 60 < d_old.timestamp) := by linarith
  have hprune : pruneHistory clk (l1 ++ d_old :: l2) = pruneHistory clk (l1 ++ l2) := by
    unfold pruneHistory
    simp [List.filter_append, List.filter_cons, hts]
  refine ⟨?_, ?_, ?_⟩
  · unfold apply_business_rules
    rw [hprune]
  · intro hmem
    unfold pruneHistory at hmem
    have := (List.mem_filter.mp hmem).2
    simp at this
    exact hts this
  · unfold recentAutoApprovals pruneHistory
    rw [List.countP_filter]
    refine List.countP_congr (fun d _ => ?_)
    simp [Bool.and_comm]

/-- C4 witness — a decision recorded 100 minutes before the call changes
nothing about the batch call. -/
theorem history_pruning_never_counts_witness :
    apply_business_rules cfg0 clk0 ⟨[dOld]⟩ [] =
      apply_business_rules cfg0 clk0 ⟨[]⟩ [] :=
  (history_pruning_never_counts cfg0 clk0 [] [] [] dOld (by decide)).1

/-- C5 — The arbiter returns a same-length, same-order list; every output
decision is either the input decision unchanged or its rate-limit
downgrade; the id, issue id, embedded recommendation, confidence,
timestamp and estimated completion are unchanged in every case; and any
decision that is not rate-limited passes through unchanged in all
fields. -/
theorem arbiter_frame (cfg : Config) (clk : Clock) (st : EngineState)
    (ds : List Decision) :
    (apply_business_rules cfg clk st ds).1.length = ds.length ∧
    ∀ j : Nat, (hj : j < ds.length) →
      ((apply_business_rules cfg clk st ds).1[j]? = some ds[j] ∨
       (apply_business_rules cfg clk st ds).1[j]? = some (rateLimitDowngrade ds[j])) ∧
      (∀ o : Decision, (apply_business_rules cfg clk st ds).1[j]? = some o →
        o.id = ds[j].id ∧ o.issue_id = ds[j].issue_id ∧
        o.recommendation = ds[j].recommendation ∧ o.confidence = ds[j].confidence ∧
        o.timestamp = ds[j].timestamp ∧
        o.estimated_completion = ds[j].estimated_completion) ∧
      (¬(eligibleAuto ds[j] = true ∧
          cfg.max_auto_deployments_per_hour ≤
            recentAutoApprovals clk st + (ds.take j).countP eligibleAuto) →
        (apply_business_rules cfg clk st ds).1[j]? = some ds[j]) := by
  have h1 : (apply_business_rules cfg clk st ds).1
      = businessRulesLoop cfg.max_auto_deployments_per_hour
          (recentAutoApprovals clk st) 0 ds := rfl
  refine ⟨by rw [h1]; exact businessRulesLoop_length _ _ ds 0, ?_⟩
  intro j hj
  have hg := businessRulesLoop_getElem cfg.max_auto_deployments_per_hour
      (recentAutoApprovals clk st) ds 0 j hj
  refine ⟨?_, ?_, ?_⟩
  · rw [h1, hg]
    by_cases hc : eligibleAuto ds[j] = true ∧
        cfg.max_auto_deployments_per_hour ≤
          recentAutoApprovals clk st + 0 + (ds.take j).countP eligibleAuto
    · exact Or.inr (by rw [if_pos hc])
    · exact Or.inl (by rw [if_neg hc])
  · intro o ho
    rw [h1, hg] at ho
    have ho' := Option.some.inj ho
    by_cases hc : eligibleAuto ds[j] = true ∧
        cfg.max_auto_deployments_per_hour ≤
          recentAutoApprovals clk st + 0 + (ds.take j).countP eligibleAuto
    · rw [if_pos hc] at ho'
      subst ho'
      exact ⟨rfl, rfl, rfl, rfl, rfl, rfl⟩
    · rw [if_neg hc] at ho'
      subst ho'
      exact ⟨rfl, rfl, rfl, rfl, rfl, rfl⟩
  · intro hnc
    have hnc' : ¬(eligibleAuto ds[j] = true ∧
        cfg.max_auto_deployments_per_hour ≤
          recentAutoApprovals clk st + 0 + (ds.take j).countP eligibleAuto) := by
      intro hx
      exact hnc ⟨hx.1, by omega⟩
    rw [h1, hg, if_neg hnc']

/-- C5 witness — a single not-rate-limited decision passes through
unchanged. -/
theorem arbiter_frame_witness :
    (apply_business_rules cfg0 clk0 stEmpty [dW]).1[0]? = some dW :=
  ((arbiter_frame cfg0 clk0 stEmpty [dW]).2 0 (by decide)).2.2 (by decide)

/-! Theorems about the session facade's error handling. -/

/-- A raw issue whose severity string is not a valid enum value. -/
def rawBadIssue : RawIssue :=
  ⟨none, none, some "catastrophic", none, none, none, none, none⟩

/-- A payload whose issue list fails enum parsing. -/
def badAnalysis : RawAnalysis := ⟨[rawBadIssue], []⟩

/-- C7 — When the payload fails to decode as JSON, or parsing the issues
or recommendations raises, `process_ai_analysis` returns the empty
decision list (and leaves the rolling history unchanged) instead of
propagating the exception. -/
theorem parse_failure_returns_empty
    (cfg : Config) (clk : Clock) (st : EngineState)
    (input : Except String RawAnalysis)
    (h : (∃ e, input = Except.error e) ∨
         ∃ a, input = Except.ok a ∧
           ((∃ e, parse_issues clk a.issues = Except.error e) ∨
            (∃ e, parse_recommendations a.recommendations = Except.error e))) :
    process_ai_analysis cfg clk st input = ([], st) := by
  rcases h with ⟨e, rfl⟩ | ⟨a, rfl, hp⟩
  · rfl
  · rcases hp with ⟨e, hp⟩ | ⟨e, hp⟩
    · simp [process_ai_analysis, hp]
    · cases hpi : parse_issues clk a.issues with
      | error e2 => simp [process_ai_analysis, hpi]
      | ok issues => simp [process_ai_analysis, hpi, hp]

/-- C7 witness — an invalid severity string in the payload yields the
empty decision list. -/
theorem parse_failure_returns_empty_witness :
    process_ai_analysis cfg0 clk0 stEmpty (Except.ok badAnalysis) = ([], stEmpty) :=
  parse_failure_returns_empty cfg0 clk0 stEmpty (Except.ok badAnalysis)
    (Or.inr ⟨badAnalysis, rfl,
      Or.inl ⟨"invalid severity: catastrophic", rfl⟩⟩)

/-! Invariants of the produced decisions. -/

/-- Every decision built by the evaluator is auto-approved exactly when
its outcome is auto-resolve, and never has outcome monitor-only. -/
theorem make_decision_invariants (cfg : Config) (clk : Clock)
    (r : Recommendation) (issues : List (String × Issue)) :
    ((make_decision cfg clk r issues).auto_approved = true ↔
      (make_decision cfg clk r issues).outcome = DecisionOutcome.auto_resolve) ∧
    (make_decision cfg clk r issues).outcome ≠ DecisionOutcome.monitor_only := by
  unfold make_decision
  cases hl : issues.lookup r.issue_id with
  | none => simp [create_escalation_decision]
  | some issue =>
    by_cases h1 : all_checks cfg clk issue r
    · simp [h1]
    · by_cases h2 : (6 : ℚ)/10 ≤ r.confidence_score ∧ issue.severity ≠ Severity.critical
      · simp [h1, h2]
      · simp [h1, h2]

/-- Every member of the arbiter's output is an input decision, unchanged
or downgraded. -/
theorem apply_business_rules_mem (cfg : Config) (clk : Clock)
    (st : EngineState) (ds : List Decision) (d : Decision)
    (h : d ∈ (apply_business_rules cfg clk st ds).1) :
    d ∈ ds ∨ ∃ d0 ∈ ds, d = rateLimitDowngrade d0 := by
  have h1 : (apply_business_rules cfg clk st ds).1
      = businessRulesLoop cfg.max_auto_deployments_per_hour
          (recentAutoApprovals clk st) 0 ds := rfl
  rw [h1] at h
  obtain ⟨j, hj⟩ := List.mem_iff_getElem?.mp h
  have hjl : j < ds.length := by
    obtain ⟨hlt, _⟩ := List.getElem?_eq_some.mp hj
    have hlen := businessRulesLoop_length cfg.max_auto_deployments_per_hour
      (recentAutoApprovals clk st) ds 0
    rw [hlen] at hlt
    exact hlt
  rw [businessRulesLoop_getElem cfg.max_auto_deployments_per_hour
    (recentAutoApprovals clk st) ds 0 j hjl] at hj
  have hd := Option.some.inj hj
  by_cases hc : eligibleAuto ds[j] = true ∧
      cfg.max_auto_deployments_per_hour ≤
        recentAutoApprovals clk st + 0 + (ds.take j).countP eligibleAuto
  · rw [if_pos hc] at hd
    exact Or.inr ⟨ds[j], List.getElem_mem hjl, hd.symm⟩
  · rw [if_neg hc] at hd
    exact Or.inl (hd ▸ List.getElem_mem hjl)

/-- Every decision returned by the facade is auto-approved exactly when
its outcome is auto-resolve, and never has outcome monitor-only. -/
theorem process_mem_invariants (cfg : Config) (clk : Clock)
    (st : EngineState) (input : Except String RawAnalysis) (d : Decision)
    (h : d ∈ (process_ai_analysis cfg clk st input).1) :
    (d.auto_approved = true ↔ d.outcome = DecisionOutcome.auto_resolve) ∧
    d.outcome ≠ DecisionOutcome.monitor_only := by
  unfold process_ai_analysis at h
  cases input with
  | error e => simp at h
  | ok a =>
    dsimp only at h
    cases hpi : parse_issues clk a.issues with
    | error e => rw [hpi] at h; simp at h
    | ok issues =>
      rw [hpi] at h
      cases hpr : parse_recommendations a.recommendations with
      | error e => rw [hpr] at h; simp at h
      | ok recommendations =>
        rw [hpr] at h
        rcases apply_business_rules_mem cfg clk st _ d h with hmem | ⟨d0, hd0, rfl⟩
        · obtain ⟨r, _, rfl⟩ := List.mem_map.mp hmem
          exact make_decision_invariants cfg clk r issues
        · refine ⟨?_, ?_⟩
          · simp [rateLimitDowngrade]
          · simp [rateLimitDowngrade]

/-- A well-formed raw issue that parses to `issueHigh`. -/
def rawGoodIssue : RawIssue :=
  ⟨some "issue_001", some "High error rate", some "high", some "datadog",
   some 990, some 45, some ["other-service"], some []⟩

/-- A well-formed raw recommendation that parses to `recScale`. -/
def rawGoodRec : RawRecommendation :=
  ⟨some "issue_001", some "scale_up", some (85/100), some "Reduce error rate",
   some "Scale up", some "Low risk", some 5, some []⟩

/-- A well-formed payload with one issue and one recommendation. -/
def goodAnalysis : RawAnalysis := ⟨[rawGoodIssue], [rawGoodRec]⟩

/-- The single decision the engine produces from `goodAnalysis`. -/
def dGood : Decision := make_decision cfg0 clk0 recScale [("issue_001", issueHigh)]

/-- C9 — In every decision list returned by the facade, a decision is
auto-approved exactly when its outcome is auto-resolve. -/
theorem facade_auto_approved_iff_auto_resolve
    (cfg : Config) (clk : Clock) (st : EngineState)
    (input : Except String RawAnalysis) (d : Decision)
    (h : d ∈ (process_ai_analysis cfg clk st input).1) :
    d.auto_approved = true ↔ d.outcome = DecisionOutcome.auto_resolve :=
  (process_mem_invariants cfg clk st input d h).1

/-- C9 witness — the decision produced from the well-formed payload. -/
theorem facade_auto_approved_iff_auto_resolve_witness :
    dGood.auto_approved = true ↔ dGood.outcome = DecisionOutcome.auto_resolve :=
  facade_auto_approved_iff_auto_resolve cfg0 clk0 stEmpty
    (Except.ok goodAnalysis) dGood
    (by
      have hout : (process_ai_analysis cfg0 clk0 stEmpty (Except.ok goodAnalysis)).1
          = [dGood] := rfl
      rw [hout]
      exact List.mem_singleton.mpr rfl)

/-- Over a list whose members satisfy the engine's invariants, the
residual count (total minus auto-approved minus escalated minus
scheduled) is zero. -/
theorem count_partition_nat (l : List Decision)
    (hinv : ∀ d ∈ l,
      (d.auto_approved = true ↔ d.outcome = DecisionOutcome.auto_resolve) ∧
      d.outcome ≠ DecisionOutcome.monitor_only) :
    l.countP (fun d => d.auto_approved)
      + l.countP (fun d => decide (d.outcome = DecisionOutcome.escalate_human))
      + l.countP (fun d => decide (d.outcome = DecisionOutcome.schedule_maintenance))
      = l.length := by
  induction l with
  | nil => simp
  | cons d rest ih =>
    have hd := hinv d (List.mem_cons_self d rest)
    have hrest := ih (fun x hx => hinv x (List.mem_cons_of_mem d hx))
    rcases hd with ⟨hiff, hmo⟩
    cases ho : d.outcome with
    | monitor_only => exact absurd ho hmo
    | auto_resolve =>
      have ha : d.auto_approved = true := hiff.mpr ho
      simp [List.countP_cons, ho, ha]
      omega
    | escalate_human =>
      rw [ho] at hiff
      have ha : d.auto_approved = false := by simpa using hiff
      simp [List.countP_cons, ho, ha]
      omega
    | schedule_maintenance =>
      rw [ho] at hiff
      have ha : d.auto_approved = false := by simpa using hiff
      simp [List.countP_cons, ho, ha]
      omega

/-- The integer form of `count_partition_nat`: the residual
`monitor_only` count is zero. -/
theorem count_partition (l : List Decision)
    (hinv : ∀ d ∈ l,
      (d.auto_approved = true ↔ d.outcome = DecisionOutcome.auto_resolve) ∧
      d.outcome ≠ DecisionOutcome.monitor_only) :
    (l.length : ℤ) - l.countP (fun d => d.auto_approved)
      - l.countP (fun d => decide (d.outcome = DecisionOutcome.escalate_human))
      - l.countP (fun d => decide (d.outcome = DecisionOutcome.schedule_maintenance)) = 0 := by
  have h := count_partition_nat l hinv
  omega

/-- C10 — No decision returned by the facade has outcome monitor-only;
consequently the residual count of an engine-produced list is zero, and
the summary's `monitor_only` field of a non-empty engine-produced list is
zero. -/
theorem no_monitor_only_disposition
    (cfg : Config) (clk : Clock) (st : EngineState)
    (input : Except String RawAnalysis) :
    (∀ d ∈ (process_ai_analysis cfg clk st input).1,
      d.outcome ≠ DecisionOutcome.monitor_only) ∧
    ((((process_ai_analysis cfg clk st input).1.length : ℤ)
        - (process_ai_analysis cfg clk st input).1.countP (fun d => d.auto_approved)
        - (process_ai_analysis cfg clk st input).1.countP
            (fun d => decide (d.outcome = DecisionOutcome.escalate_human))
        - (process_ai_analysis cfg clk st input).1.countP
            (fun d => decide (d.outcome = DecisionOutcome.schedule_maintenance))) = 0) ∧
    ((process_ai_analysis cfg clk st input).1 ≠ [] →
      (get_decision_summary (process_ai_analysis cfg clk st input).1).monitor_only =
        some 0) := by
  have hinv := fun d hd => process_mem_invariants cfg clk st input d hd
  have hcount := count_partition _ hinv
  refine ⟨fun d hd => (hinv d hd).2, hcount, ?_⟩
  intro hne
  unfold get_decision_summary
  rw [if_neg hne]
  exact congrArg some hcount

/-- C10 witness — the summary of the list produced from the well-formed
payload has a zero `monitor_only` field. -/
theorem no_monitor_only_disposition_witness :
    (get_decision_summary
        (process_ai_analysis cfg0 clk0 stEmpty (Except.ok goodAnalysis)).1).monitor_only =
      some 0 :=
  (no_monitor_only_disposition cfg0 clk0 stEmpty (Except.ok goodAnalysis)).2.2
    (by
      have hout : (process_ai_analysis cfg0 clk0 stEmpty (Except.ok goodAnalysis)).1
          = [dGood] := rfl
      rw [hout]
      exact List.cons_ne_nil dGood [])

/-! Theorems about the summary operation. -/

/-- A recommendation embedded in the summary fixtures. -/
def recC6 : Recommendation :=
  ⟨"i", ActionType.scale_up, 1/10, "Unknown", "", "Medium risk", 5, []⟩

/-- A summary fixture decision with confidence 0.1. -/
def dC6a : Decision :=
  ⟨"a", "i", recC6, DecisionOutcome.escalate_human, 1/10, "x", 0, false, 0⟩

/-- A summary fixture decision with confidence 0.2. -/
def dC6b : Decision :=
  ⟨"b", "i", recC6, DecisionOutcome.escalate_human, 2/10, "x", 0, false, 0⟩

/-- Another summary fixture decision with confidence 0.2. -/
def dC6c : Decision :=
  ⟨"c", "i", recC6, DecisionOutcome.schedule_maintenance, 2/10, "x", 0, false, 0⟩

/-- C6 counterexample — the claim fails twice on the code: the
empty-input branch of `get_decision_summary` returns a dict without the
`monitor_only` key (so that field is not a zeroed value), and for a
non-empty list the `average_confidence` field is the mean rounded to
three decimal places, not the exact arithmetic mean (here the mean is
1/6 but the field holds 0.167). -/
theorem summary_spec_counterexample :
    (get_decision_summary []).monitor_only ≠ some 0 ∧
    (get_decision_summary [dC6a, dC6b, dC6c]).average_confidence ≠
      ([dC6a, dC6b, dC6c].map (fun d => d.confidence)).sum /
        (([dC6a, dC6b, dC6c].length : ℚ)) := by
  constructor
  · decide
  · decide

/-- C6 (amended) — On an empty list the summary has zeroed
total/auto-approved/escalation/scheduled counts and zero average
confidence but omits the `monitor_only` (and `decisions`) keys; on a
non-empty list it returns the count of auto-approved decisions, the
counts of escalate-human and schedule-maintenance outcomes, the residual
`monitor_only` value, and the arithmetic mean confidence rounded
half-to-even to three decimal places. -/
theorem summary_correct :
    (get_decision_summary [] =
      { total_decisions := 0, auto_approved := 0, escalations := 0,
        scheduled := 0, monitor_only := none, average_confidence := 0,
        decisions := none }) ∧
    ∀ ds : List Decision, ds ≠ [] →
      (get_decision_summary ds).total_decisions = ds.length ∧
      (get_decision_summary ds).auto_approved =
        ds.countP (fun d => d.auto_approved) ∧
      (get_decision_summary ds).escalations =
        ds.countP (fun d => decide (d.outcome = DecisionOutcome.escalate_human)) ∧
      (get_decision_summary ds).scheduled =
        ds.countP (fun d => decide (d.outcome = DecisionOutcome.schedule_maintenance)) ∧
      (get_decision_summary ds).monitor_only =
        some ((ds.length : ℤ) - ds.countP (fun d => d.auto_approved)
          - ds.countP (fun d => decide (d.outcome = DecisionOutcome.escalate_human))
          - ds.countP (fun d => decide (d.outcome = DecisionOutcome.schedule_maintenance))) ∧
      (get_decision_summary ds).average_confidence =
        pyRound3 ((ds.map (fun d => d.confidence)).sum / (ds.length : ℚ)) := by
  refine ⟨rfl, ?_⟩
  intro ds hne
  unfold get_decision_summary
  rw [if_neg hne]
  exact ⟨rfl, rfl, rfl, rfl, rfl, rfl⟩

/-- C6 witness — the amended statement evaluated on the three-decision
fixture list. -/
theorem summary_correct_witness :
    (get_decision_summary [dC6a, dC6b, dC6c]).total_decisions =
      [dC6a, dC6b, dC6c].length ∧
    (get_decision_summary [dC6a, dC6b, dC6c]).average_confidence =
      pyRound3 (([dC6a, dC6b, dC6c].map (fun d => d.confidence)).sum /
        (([dC6a, dC6b, dC6c].length : ℚ))) :=
  ⟨(summary_correct.2 [dC6a, dC6b, dC6c] (by decide)).1,
   (summary_correct.2 [dC6a, dC6b, dC6c] (by decide)).2.2.2.2.2⟩

end DecisionEngine
